import Mathlib

/-!
# Verification of the crbot river-race aggregation and scoring pipeline

Shallow embedding of the core data-processing functions of the repository
(`clash.py`, `formatters.py`, `handlers.py`, `config.py`) together with
theorems settling the specification claims about them.

Python JSON dictionaries are embedded as Lean structures; numeric JSON
fields read with `int(d.get(k) or 0)` / `d.get(k, 0)` are embedded as `Int`
fields defaulting to `0`, string fields whose presence matters as
`Option String`.  Real-valued arithmetic (Python floats) is embedded as
exact rational arithmetic over `ℚ`.  Wall-clock readings
(`datetime.now(...)`) are embedded as explicit parameters.
-/

namespace Crbot

/-! ## String helpers (embedding of Python `str` methods) -/

/-- Embedding of Python `s.upper()` (character-wise upper-casing). -/
def strUpper (s : String) : String := ⟨s.data.map Char.toUpper⟩

/-- Embedding of Python `s.lower()` (character-wise lower-casing). -/
def strLower (s : String) : String := ⟨s.data.map Char.toLower⟩

/-- Embedding of `s.upper().lstrip("#")`: the tag normalization used
throughout `clash.py` and `formatters.py`. -/
def normTag (s : String) : String := ⟨(s.data.map Char.toUpper).dropWhile (· = '#')⟩

/-- Embedding of Python string slicing `s[:n]` (used for the
`MAX_MESSAGE_LENGTH` truncation `[:config.MAX_MESSAGE_LENGTH]`). -/
def strTake (s : String) (n : Nat) : String := ⟨s.data.take n⟩

/-- Code-point comparison of char lists: embedding of Python `str` `<`. -/
def charListLt : List Char → List Char → Bool
  | [], [] => false
  | [], _ :: _ => true
  | _ :: _, [] => false
  | a :: as, b :: bs =>
    if a.toNat < b.toNat then true
    else if b.toNat < a.toNat then false
    else charListLt as bs

/-- Non-strict code-point comparison of char lists (Python `str` `<=`). -/
def charListLe : List Char → List Char → Bool
  | [], _ => true
  | _ :: _, [] => false
  | a :: as, b :: bs =>
    if a.toNat < b.toNat then true
    else if b.toNat < a.toNat then false
    else charListLe as bs

/-- Embedding of Python string `<`. -/
def strLt (a b : String) : Bool := charListLt a.data b.data

/-- Embedding of Python string `<=`. -/
def strLe (a b : String) : Bool := charListLe a.data b.data

theorem charListLe_trans : ∀ a b c : List Char, charListLe a b = true →
    charListLe b c = true → charListLe a c = true := by
  intro a
  induction a with
  | nil => intro b c _ _; rfl
  | cons x xs ih =>
    intro b c hab hbc
    cases b with
    | nil => simp [charListLe] at hab
    | cons y ys =>
      cases c with
      | nil => simp [charListLe] at hbc
      | cons z zs =>
        simp only [charListLe] at hab hbc ⊢
        by_cases hxy : x.toNat < y.toNat
        · by_cases hyz : y.toNat < z.toNat
          · rw [if_pos (by omega)]
          · rw [if_neg hyz] at hbc
            by_cases hzy : z.toNat < y.toNat
            · rw [if_pos hzy] at hbc; exact absurd hbc (by simp)
            · rw [if_pos (by omega)]
        · rw [if_neg hxy] at hab
          by_cases hyx : y.toNat < x.toNat
          · rw [if_pos hyx] at hab; exact absurd hab (by simp)
          · rw [if_neg hyx] at hab
            by_cases hyz : y.toNat < z.toNat
            · rw [if_pos (by omega)]
            · rw [if_neg hyz] at hbc
              by_cases hzy : z.toNat < y.toNat
              · rw [if_pos hzy] at hbc; exact absurd hbc (by simp)
              · rw [if_neg hzy] at hbc
                rw [if_neg (by omega), if_neg (by omega)]
                exact ih ys zs hab hbc

theorem charListLe_total : ∀ a b : List Char,
    (charListLe a b || charListLe b a) = true := by
  intro a
  induction a with
  | nil => intro b; simp [charListLe]
  | cons x xs ih =>
    intro b
    cases b with
    | nil => simp [charListLe]
    | cons y ys =>
      simp only [charListLe]
      by_cases hxy : x.toNat < y.toNat
      · rw [if_pos hxy]; simp
      · by_cases hyx : y.toNat < x.toNat
        · rw [if_neg hxy, if_pos hyx, if_pos hyx]; simp
        · rw [if_neg hxy, if_neg hyx, if_neg hyx, if_neg hxy]
          exact ih ys

theorem strLe_trans (a b c : String) (h1 : strLe a b = true)
    (h2 : strLe b c = true) : strLe a c = true :=
  charListLe_trans a.data b.data c.data h1 h2

theorem strLe_total (a b : String) : (strLe a b || strLe b a) = true :=
  charListLe_total a.data b.data

/-! ## Data model (shapes of the upstream JSON payloads) -/

/-- One participant entry of a clan in a river-race payload
(current war or a standing of the river-race log). -/
structure Participant where
  tag : Option String := none
  name : Option String := none
  fame : Int := 0
  repairPoints : Int := 0
  decksUsed : Int := 0
  boatAttacks : Int := 0
  decksUsedToday : Int := 0
  deriving Repr, DecidableEq

/-- A clan object inside a river-race payload (`rr["clan"]`, an entry of
`rr["clans"]`, or `standing["clan"]` in the log). -/
structure WarClan where
  tag : Option String := none
  name : Option String := none
  fame : Int := 0
  periodPoints : Int := 0
  participants : List Participant := []
  deriving Repr, DecidableEq

/-- One standing inside a river-race log item. -/
structure Standing where
  clan : Option WarClan := none
  deriving Repr, DecidableEq

/-- One item (war period) of the river-race log.  `ts` is the abstract
already-parsed timestamp of the period: the value of
`parse_sc_time(it.get("createdDate") or it.get("endTime") or
it.get("finishedTime") or it.get("updatedTime"))`, `none` when unparseable. -/
structure LogItem where
  ts : Option Nat := none
  standings : List Standing := []
  deriving Repr, DecidableEq

/-- The river-race log payload (`/riverracelog`). -/
structure RiverLog where
  items : List LogItem := []
  deriving Repr, DecidableEq

/-- The current river-race payload (`/currentriverrace`).  `clans = none`
embeds both an absent `"clans"` key and a `null` value; `some l` embeds a
present list (for mutation claims the present-empty and absent cases must
be distinguished, hence the `Option`). -/
structure RR where
  clan : Option WarClan := none
  clans : Option (List WarClan) := none
  deriving Repr, DecidableEq

/-- `st.get("clan") or {}`: the clan object of a standing, with the empty
dictionary (all fields defaulted) substituted when absent. -/
def Standing.clanObj (st : Standing) : WarClan := st.clan.getD {}

/-- `(clan_obj.get("tag") or "").upper().lstrip("#")` for a standing. -/
def Standing.normClanTag (st : Standing) : String := normTag (st.clanObj.tag.getD "")

/-- `clan_obj.get("participants") or []` for a standing. -/
def Standing.parts (st : Standing) : List Participant := st.clanObj.participants

/-- Normalized tag of a war clan object. -/
def WarClan.normTagOf (c : WarClan) : String := normTag (c.tag.getD "")

/-! ## Historical aggregator (`clash.py`, `_aggregate_war_history`) -/

/-- Accumulator entry: `{name, fame, repair, decks, boats, wars,
first_seen, last_seen}`. -/
structure WarAgg where
  name : String := "Unbekannt"
  fame : Int := 0
  repair : Int := 0
  decks : Int := 0
  boats : Int := 0
  wars : Int := 0
  first_seen : Option Nat := none
  last_seen : Option Nat := none
  deriving Repr, DecidableEq

/-- The accumulator dictionary `acc`, embedded as an insertion-ordered
association list (Python dicts preserve insertion order). -/
abbrev WarAcc := List (String × WarAgg)

/-- First-match lookup in the accumulator (Python `acc[key]` / `key in acc`). -/
def lookupEntry : WarAcc → String → Option WarAgg
  | [], _ => none
  | (k, v) :: rest, key => if k = key then some v else lookupEntry rest key

/-- In-place update of an existing key, appending when absent
(Python dict assignment semantics). -/
def setEntry : WarAcc → String → WarAgg → WarAcc
  | [], k, v => [(k, v)]
  | (k', v') :: rest, k, v =>
    if k' = k then (k, v) :: rest else (k', v') :: setEntry rest k v

/-- Accumulator key of a participant: the normalized tag, or
`"NON-" + name` when the normalized tag is empty
(`ptag = f"NON-{p.get('name','?')}"`). -/
def pKey (p : Participant) : String :=
  let t := normTag (p.tag.getD "")
  if t = "" then "NON-" ++ (p.name.getD "?") else t

/-- The fresh entry created by `acc.setdefault(ptag, {...})`. -/
def freshAgg (p : Participant) (ts : Option Nat) : WarAgg :=
  { name := p.name.getD "Unbekannt", fame := 0, repair := 0, decks := 0,
    boats := 0, wars := 0, first_seen := ts, last_seen := ts }

/-- The in-place mutation of one accumulator entry for one participant
occurrence (`entry["fame"] += ...` etc., followed by the `first_seen` /
`last_seen` update guarded by `if at:`). -/
def updAgg (e : WarAgg) (p : Participant) (ts : Option Nat) : WarAgg :=
  let e1 : WarAgg :=
    { e with
      name := p.name.getD e.name,
      fame := e.fame + p.fame,
      repair := e.repair + p.repairPoints,
      decks := e.decks + p.decksUsed,
      boats := e.boats + p.boatAttacks,
      wars := e.wars + 1 }
  match ts with
  | none => e1
  | some t =>
    { e1 with
      first_seen := match e1.first_seen with
        | none => some t
        | some f => if t < f then some t else some f,
      last_seen := match e1.last_seen with
        | none => some t
        | some l => if l < t then some t else some l }

/-- Processing of a single participant of a matching standing. -/
def procP (ts : Option Nat) (acc : WarAcc) (p : Participant) : WarAcc :=
  let key := pKey p
  setEntry acc key (updAgg ((lookupEntry acc key).getD (freshAgg p ts)) p ts)

/-- Embedding of `_aggregate_war_history(rlog, my_tag_nohash)`
(`clash.py` lines 184-234). -/
def aggregate_war_history (rlog : RiverLog) (my_tag_nohash : String) : WarAcc :=
  let myTag := normTag my_tag_nohash
  rlog.items.foldl
    (fun acc it =>
      it.standings.foldl
        (fun acc st =>
          if st.normClanTag = myTag then (st.parts).foldl (procP it.ts) acc
          else acc)
        acc)
    []

/-- All occurrences (participant entry paired with the period timestamp) of
the accumulator key `key`: one per participant entry whose key is `key`,
inside a standing whose normalized clan tag is `myTag`, over all log
periods.  Periods without a matching standing contribute nothing. -/
def warOccsT (rlog : RiverLog) (myTag key : String) : List (Participant × Option Nat) :=
  rlog.items.flatMap fun it =>
    (it.standings.filter fun st => st.normClanTag = myTag).flatMap fun st =>
      ((st.parts).filter fun p => pKey p = key).map fun p => (p, it.ts)

/-- The occurrence list of `key`, participants only. -/
def warOccs (rlog : RiverLog) (myTag key : String) : List Participant :=
  (warOccsT rlog myTag key).map (·.1)

/-! ### Characterization of the aggregator fold -/

/-- Effect of one occurrence on the optional entry stored under its key. -/
def applyOne (o : Option WarAgg) (p : Participant) (ts : Option Nat) : Option WarAgg :=
  some (updAgg (o.getD (freshAgg p ts)) p ts)

/-- Effect of a list of occurrences on the optional entry stored under
their common key. -/
def applyMany (o : Option WarAgg) : List (Participant × Option Nat) → Option WarAgg
  | [] => o
  | (p, ts) :: rest => applyMany (applyOne o p ts) rest

theorem lookup_setEntry (acc : WarAcc) (k key : String) (v : WarAgg) :
    lookupEntry (setEntry acc k v) key =
      if k = key then some v else lookupEntry acc key := by
  induction acc with
  | nil => by_cases h : k = key <;> simp [setEntry, lookupEntry, h]
  | cons hd tl ih =>
    obtain ⟨k', v'⟩ := hd
    by_cases h1 : k' = k
    · subst h1
      by_cases h2 : k' = key <;> simp [setEntry, lookupEntry, h2]
    · by_cases h2 : k' = key
      · subst h2
        have : ¬ k = k' := fun h => h1 h.symm
        simp [setEntry, lookupEntry, h1, this]
      · simp [setEntry, lookupEntry, h1, h2, ih]

theorem lookup_procP (ts : Option Nat) (acc : WarAcc) (p : Participant) (key : String) :
    lookupEntry (procP ts acc p) key =
      if pKey p = key then applyOne (lookupEntry acc key) p ts
      else lookupEntry acc key := by
  by_cases h : pKey p = key
  · simp [procP, lookup_setEntry, h, applyOne]
  · simp [procP, lookup_setEntry, h]

theorem applyMany_append (o : Option WarAgg) (l₁ l₂ : List (Participant × Option Nat)) :
    applyMany o (l₁ ++ l₂) = applyMany (applyMany o l₁) l₂ := by
  induction l₁ generalizing o with
  | nil => simp [applyMany]
  | cons hd tl ih => obtain ⟨p, ts⟩ := hd; simp [applyMany, ih]

theorem lookup_foldl_parts (ts : Option Nat) (ps : List Participant)
    (acc : WarAcc) (key : String) :
    lookupEntry (ps.foldl (procP ts) acc) key =
      applyMany (lookupEntry acc key)
        ((ps.filter fun p => pKey p = key).map fun p => (p, ts)) := by
  induction ps generalizing acc with
  | nil => simp [applyMany]
  | cons p rest ih =>
    by_cases h : pKey p = key
    · simp only [List.foldl_cons, ih, List.filter_cons, h]
      simp [lookup_procP, h, applyMany]
    · simp only [List.foldl_cons, ih, List.filter_cons, h]
      simp [lookup_procP, h]

/-- Occurrences contributed by one standing (under a fixed timestamp). -/
def stOccs (myTag key : String) (ts : Option Nat) (st : Standing) :
    List (Participant × Option Nat) :=
  if st.normClanTag = myTag then
    ((st.parts).filter fun p => pKey p = key).map fun p => (p, ts)
  else []

theorem lookup_foldl_standings (myTag key : String) (ts : Option Nat)
    (sts : List Standing) (acc : WarAcc) :
    lookupEntry
        (sts.foldl
          (fun acc st =>
            if st.normClanTag = myTag then (st.parts).foldl (procP ts) acc else acc)
          acc) key =
      applyMany (lookupEntry acc key) (sts.flatMap (stOccs myTag key ts)) := by
  induction sts generalizing acc with
  | nil => simp [applyMany]
  | cons st rest ih =>
    by_cases h : st.normClanTag = myTag
    · simp only [List.foldl_cons, h, if_true, ih, List.flatMap_cons, stOccs, h,
        applyMany_append, lookup_foldl_parts]
    · simp only [List.foldl_cons, h, if_false, ih, List.flatMap_cons, stOccs,
        if_neg h, List.nil_append]

theorem lookup_aggregate (rlog : RiverLog) (my_tag_nohash key : String) :
    lookupEntry (aggregate_war_history rlog my_tag_nohash) key =
      applyMany none (warOccsT rlog (normTag my_tag_nohash) key) := by
  unfold aggregate_war_history warOccsT
  generalize normTag my_tag_nohash = myTag
  have main : ∀ (items : List LogItem) (acc : WarAcc),
      lookupEntry
          (items.foldl
            (fun acc it =>
              it.standings.foldl
                (fun acc st =>
                  if st.normClanTag = myTag then (st.parts).foldl (procP it.ts) acc
                  else acc)
                acc)
            acc) key =
        applyMany (lookupEntry acc key)
          (items.flatMap fun it =>
            (it.standings.filter fun st => st.normClanTag = myTag).flatMap fun st =>
              ((st.parts).filter fun p => pKey p = key).map fun p => (p, it.ts)) := by
    intro items
    induction items with
    | nil => intro acc; simp [applyMany]
    | cons it rest ih =>
      intro acc
      have hst : (it.standings.filter fun st => st.normClanTag = myTag).flatMap
            (fun st => ((st.parts).filter fun p => pKey p = key).map fun p => (p, it.ts)) =
          it.standings.flatMap (stOccs myTag key it.ts) := by
        induction it.standings with
        | nil => simp
        | cons s ss ihs =>
          by_cases h : s.normClanTag = myTag
          · simp [List.filter_cons, h, stOccs, ihs]
          · simp [List.filter_cons, h, stOccs, ihs]
      simp only [List.foldl_cons, ih, List.flatMap_cons, applyMany_append, hst,
        lookup_foldl_standings]
  simpa [lookupEntry] using main rlog.items []

theorem applyMany_some_fields (l : List (Participant × Option Nat)) :
    ∀ e : WarAgg, ∃ e', applyMany (some e) l = some e' ∧
      e'.fame = e.fame + (l.map (·.1.fame)).sum ∧
      e'.repair = e.repair + (l.map (·.1.repairPoints)).sum ∧
      e'.decks = e.decks + (l.map (·.1.decksUsed)).sum ∧
      e'.boats = e.boats + (l.map (·.1.boatAttacks)).sum ∧
      e'.wars = e.wars + l.length := by
  induction l with
  | nil => intro e; exact ⟨e, rfl, by simp, by simp, by simp, by simp, by simp⟩
  | cons hd tl ih =>
    intro e
    obtain ⟨p, ts⟩ := hd
    obtain ⟨e', he', hf, hr, hd', hb, hw⟩ := ih (updAgg e p ts)
    have hu : ∀ x : Option Nat,
        (updAgg e p x).fame = e.fame + p.fame ∧
        (updAgg e p x).repair = e.repair + p.repairPoints ∧
        (updAgg e p x).decks = e.decks + p.decksUsed ∧
        (updAgg e p x).boats = e.boats + p.boatAttacks ∧
        (updAgg e p x).wars = e.wars + 1 := by
      intro x
      cases x <;> simp [updAgg]
    refine ⟨e', ?_, ?_, ?_, ?_, ?_, ?_⟩
    · simpa [applyMany, applyOne] using he'
    · rw [hf, (hu ts).1]; simp [List.map_cons, List.sum_cons]; ring
    · rw [hr, (hu ts).2.1]; simp [List.map_cons, List.sum_cons]; ring
    · rw [hd', (hu ts).2.2.1]; simp [List.map_cons, List.sum_cons]; ring
    · rw [hb, (hu ts).2.2.2.1]; simp [List.map_cons, List.sum_cons]; ring
    · rw [hw, (hu ts).2.2.2.2]; simp [List.length_cons]; ring

theorem applyMany_none_nil : applyMany none [] = none := rfl

theorem applyMany_none_fields (l : List (Participant × Option Nat)) (hne : l ≠ []) :
    ∃ e', applyMany none l = some e' ∧
      e'.fame = (l.map (·.1.fame)).sum ∧
      e'.repair = (l.map (·.1.repairPoints)).sum ∧
      e'.decks = (l.map (·.1.decksUsed)).sum ∧
      e'.boats = (l.map (·.1.boatAttacks)).sum ∧
      e'.wars = l.length := by
  match l, hne with
  | (p, ts) :: tl, _ =>
    have hfresh : ∀ x : Option Nat,
        (updAgg (freshAgg p x) p x).fame = p.fame ∧
        (updAgg (freshAgg p x) p x).repair = p.repairPoints ∧
        (updAgg (freshAgg p x) p x).decks = p.decksUsed ∧
        (updAgg (freshAgg p x) p x).boats = p.boatAttacks ∧
        (updAgg (freshAgg p x) p x).wars = 1 := by
      intro x; cases x <;> simp [updAgg, freshAgg]
    obtain ⟨e', he', hf, hr, hd', hb, hw⟩ :=
      applyMany_some_fields tl (updAgg (freshAgg p ts) p ts)
    refine ⟨e', ?_, ?_, ?_, ?_, ?_, ?_⟩
    · simpa [applyMany, applyOne] using he'
    · rw [hf, (hfresh ts).1]; simp
    · rw [hr, (hfresh ts).2.1]; simp
    · rw [hd', (hfresh ts).2.2.1]; simp
    · rw [hb, (hfresh ts).2.2.2.1]; simp
    · rw [hw, (hfresh ts).2.2.2.2]; simp [List.length_cons]; ring

theorem warOccs_map_eq (rlog : RiverLog) (myTag key : String)
    (f : Participant → Int) :
    ((warOccs rlog myTag key).map f).sum =
      ((warOccsT rlog myTag key).map (fun x => f x.1)).sum := by
  simp [warOccs, List.map_map, Function.comp_def]

theorem agg_lookup_spec (rlog : RiverLog) (my_tag_nohash key : String) :
    (lookupEntry (aggregate_war_history rlog my_tag_nohash) key = none ↔
      warOccs rlog (normTag my_tag_nohash) key = []) ∧
    (∀ e, lookupEntry (aggregate_war_history rlog my_tag_nohash) key = some e →
      e.fame = ((warOccs rlog (normTag my_tag_nohash) key).map Participant.fame).sum ∧
      e.repair = ((warOccs rlog (normTag my_tag_nohash) key).map Participant.repairPoints).sum ∧
      e.decks = ((warOccs rlog (normTag my_tag_nohash) key).map Participant.decksUsed).sum ∧
      e.boats = ((warOccs rlog (normTag my_tag_nohash) key).map Participant.boatAttacks).sum ∧
      e.wars = ((warOccs rlog (normTag my_tag_nohash) key).length : Int)) := by
  rw [lookup_aggregate]
  rcases h : warOccsT rlog (normTag my_tag_nohash) key with _ | ⟨hd, tl⟩
  · constructor
    · simp [warOccs, h, applyMany]
    · intro e he
      simp [applyMany] at he
  · have hne : warOccsT rlog (normTag my_tag_nohash) key ≠ [] := by simp [h]
    obtain ⟨e', he', hf, hr, hd', hb, hw⟩ :=
      applyMany_none_fields (warOccsT rlog (normTag my_tag_nohash) key) hne
    rw [h] at he'
    constructor
    · rw [he']
      simp [warOccs, h]
    · intro e he
      rw [he'] at he
      injection he with he
      subst he
      refine ⟨?_, ?_, ?_, ?_, ?_⟩
      · rw [warOccs_map_eq]; exact hf
      · rw [warOccs_map_eq]; exact hr
      · rw [warOccs_map_eq]; exact hd'
      · rw [warOccs_map_eq]; exact hb
      · rw [hw]; simp [warOccs]

/-- C1: for every river-race-log payload and every own-clan tag, the
aggregate produced by `_aggregate_war_history` maps each player key
(normalized player tag, or the `"NON-"+name` fallback when the normalized
tag is empty) to totals of fame, repairPoints, decksUsed and boatAttacks
that equal the sums of that player's fields over exactly the appearances of
the player inside standings whose normalized clan tag matches the
normalized own-clan tag; periods without a matching standing contribute
nothing (they add no appearances), a key is present in the aggregate iff it
has at least one such appearance, and the wars counter equals the number of
appearances. -/
theorem aggregate_war_history_totals (rlog : RiverLog) (my_tag_nohash key : String) :
    (lookupEntry (aggregate_war_history rlog my_tag_nohash) key = none ↔
      warOccs rlog (normTag my_tag_nohash) key = []) ∧
    (∀ e, lookupEntry (aggregate_war_history rlog my_tag_nohash) key = some e →
      e.fame = ((warOccs rlog (normTag my_tag_nohash) key).map Participant.fame).sum ∧
      e.repair = ((warOccs rlog (normTag my_tag_nohash) key).map Participant.repairPoints).sum ∧
      e.decks = ((warOccs rlog (normTag my_tag_nohash) key).map Participant.decksUsed).sum ∧
      e.boats = ((warOccs rlog (normTag my_tag_nohash) key).map Participant.boatAttacks).sum ∧
      e.wars = ((warOccs rlog (normTag my_tag_nohash) key).length : Int)) :=
  agg_lookup_spec rlog my_tag_nohash key

/-- A concrete three-period log: the own clan (tag `my`, normalized `MY`)
appears in periods 1 and 3 with player `P1` scoring 100 and 50; period 2
belongs to another clan. -/
def exLog : RiverLog :=
  { items :=
      [ { ts := some 10,
          standings :=
            [ { clan := some { tag := some "#my", participants :=
                  [ { tag := some "#p1", name := some "Alice", fame := 100,
                      decksUsed := 4 } ] } },
              { clan := some { tag := some "#EN", participants :=
                  [ { tag := some "#p1", fame := 7 } ] } } ] },
        { ts := some 20,
          standings :=
            [ { clan := some { tag := some "#EN2", participants :=
                  [ { tag := some "#p1", fame := 999 } ] } } ] },
        { ts := some 30,
          standings :=
            [ { clan := some { tag := some "MY", participants :=
                  [ { tag := some "P1", name := some "Alice", fame := 50,
                      decksUsed := 2, boatAttacks := 1 } ] } } ] } ] }

/-- The aggregate entry of player `P1` in `exLog` under own-clan tag `my`. -/
def exAggP1 : WarAgg :=
  { name := "Alice", fame := 150, repair := 0, decks := 6, boats := 1,
    wars := 2, first_seen := some 10, last_seen := some 30 }

theorem aggregate_war_history_totals_witness :
    exAggP1.fame = ((warOccs exLog (normTag "my") "P1").map Participant.fame).sum ∧
    exAggP1.repair = ((warOccs exLog (normTag "my") "P1").map Participant.repairPoints).sum ∧
    exAggP1.decks = ((warOccs exLog (normTag "my") "P1").map Participant.decksUsed).sum ∧
    exAggP1.boats = ((warOccs exLog (normTag "my") "P1").map Participant.boatAttacks).sum ∧
    exAggP1.wars = ((warOccs exLog (normTag "my") "P1").length : Int) :=
  (aggregate_war_history_totals exLog "my" "P1").2 exAggP1 (by decide)

/-! ## Staleness heuristic (`clash.py`, `_looks_stale`) and the
freshness-aware fetcher (`get_current_river_fresh`) -/

/-- `(rr.get("clan") or {}).get("participants") or []`. -/
def RR.myParts (rr : RR) : List Participant := (rr.clan.getD {}).participants

/-- Embedding of `_looks_stale(rr, max_decks)` (`clash.py` lines 157-181).
The local wall-clock hour `datetime.now(LOCAL_TZ).hour` is the explicit
parameter `hour_local`; the float literal `0.70` is embedded as the exact
rational `7/10`. -/
def looks_stale (rr : RR) (max_decks : Int) (hour_local : Nat) : Bool :=
  let participants := rr.myParts
  if participants.isEmpty then false
  else
    let rows := participants.map fun p => max (max_decks - p.decksUsedToday) 0
    let total := rows.length
    let four_open := (rows.filter fun r => r = max_decks).length
    decide (0 < total) && decide ((7 : ℚ)/10 ≤ (four_open : ℚ) / (total : ℚ)) &&
      decide (17 ≤ hour_local)

/-- The fraction of a clan's participants whose remaining attacks
`max(max_decks - decksUsedToday, 0)` equal `max_decks` (untouched today). -/
def untouchedFraction (rr : RR) (max_decks : Int) : ℚ :=
  ((rr.myParts.filter fun p => max (max_decks - p.decksUsedToday) 0 = max_decks).length : ℚ) /
    (rr.myParts.length : ℚ)

/-- A current-war payload with 10 own participants, 8 of them untouched
today (80 percent). -/
def ex80 : RR :=
  { clan := some { tag := some "MY", participants :=
      [ { decksUsedToday := 0 }, { decksUsedToday := 0 }, { decksUsedToday := 0 },
        { decksUsedToday := 0 }, { decksUsedToday := 0 }, { decksUsedToday := 0 },
        { decksUsedToday := 0 }, { decksUsedToday := 0 },
        { decksUsedToday := 4 }, { decksUsedToday := 4 } ] } }

/-- A current-war payload with 20 own participants, exactly 1 untouched
today (5 percent). -/
def ex5 : RR :=
  { clan := some { tag := some "MY", participants :=
      { decksUsedToday := 0 } ::
        List.replicate 19 { decksUsedToday := 4 } } }

/-- Characterization of `_looks_stale` on payloads with a non-empty
participant list. -/
theorem looks_stale_char (rr : RR) (max_decks : Int) (hour : Nat)
    (h : rr.myParts ≠ []) :
    looks_stale rr max_decks hour = true ↔
      (7 : ℚ)/10 ≤ untouchedFraction rr max_decks ∧ 17 ≤ hour := by
  have hlen : (rr.myParts.filter
      fun p => max (max_decks - p.decksUsedToday) 0 = max_decks).length =
      ((rr.myParts.map fun p => max (max_decks - p.decksUsedToday) 0).filter
        fun r => r = max_decks).length := by
    rw [← List.countP_eq_length_filter, ← List.countP_eq_length_filter,
      List.countP_map]
    rfl
  have hpos : 0 < rr.myParts.length := List.length_pos.mpr h
  simp only [looks_stale, untouchedFraction, List.isEmpty_iff, h, if_false,
    Bool.and_eq_true, decide_eq_true_eq, List.length_map, hlen]
  constructor
  · rintro ⟨⟨-, h2⟩, h3⟩; exact ⟨h2, h3⟩
  · rintro ⟨h2, h3⟩; exact ⟨⟨hpos, h2⟩, h3⟩

theorem ex80_fraction : untouchedFraction ex80 4 = 8/10 := by
  have h1 : ((RR.myParts ex80).filter
      fun p => max ((4:Int) - p.decksUsedToday) 0 = 4).length = 8 := by decide
  have h2 : (RR.myParts ex80).length = 10 := by decide
  rw [untouchedFraction, h1, h2]
  norm_num

theorem ex5_fraction : untouchedFraction ex5 4 = 1/20 := by
  have h1 : ((RR.myParts ex5).filter
      fun p => max ((4:Int) - p.decksUsedToday) 0 = 4).length = 1 := by decide
  have h2 : (RR.myParts ex5).length = 20 := by decide
  rw [untouchedFraction, h1, h2]
  norm_num

theorem ex80_stale18 : looks_stale ex80 4 18 = true :=
  (looks_stale_char ex80 4 18 (by decide)).mpr
    ⟨by rw [ex80_fraction]; norm_num, by norm_num⟩

/-- C3: for every current-war payload with a non-empty own-clan participant
list, `_looks_stale` returns true iff the untouched fraction (participants
whose remaining attacks `max(max_decks - decksUsedToday, 0)` equal
`max_decks`) is at least `7/10` and the local hour is at least 17; in
particular it is true on the 80-percent payload at hour 18, false on the
same payload at hour 10, and false on the 5-percent payload at every hour. -/
theorem looks_stale_iff :
    (∀ (rr : RR) (max_decks : Int) (hour : Nat), rr.myParts ≠ [] →
      (looks_stale rr max_decks hour = true ↔
        (7 : ℚ)/10 ≤ untouchedFraction rr max_decks ∧ 17 ≤ hour)) ∧
    looks_stale ex80 4 18 = true ∧
    looks_stale ex80 4 10 = false ∧
    (∀ hour : Nat, looks_stale ex5 4 hour = false) := by
  refine ⟨looks_stale_char, ex80_stale18, ?_, ?_⟩
  · rw [Bool.eq_false_iff]
    intro hc
    have := (looks_stale_char ex80 4 10 (by decide)).mp hc
    omega
  · intro hour
    rw [Bool.eq_false_iff]
    intro hc
    have h := (looks_stale_char ex5 4 hour (by decide)).mp hc
    rw [ex5_fraction] at h
    have : (7:ℚ)/10 ≤ 1/20 := h.1
    norm_num at this

theorem looks_stale_iff_witness :
    RR.myParts ex80 ≠ [] ∧
    (looks_stale ex80 4 18 = true ↔
      (7 : ℚ)/10 ≤ untouchedFraction ex80 4 ∧ 17 ≤ 18) :=
  ⟨by decide, looks_stale_iff.1 ex80 4 18 (by decide)⟩

/-- Embedding of `get_current_river_fresh(attempts, max_decks)`
(`clash.py` lines 136-155).  Successive upstream `get_current_river`
responses are the stream `responses`; the result is paired with the number
of upstream fetches issued. -/
def get_current_river_fresh (attempts max_decks : Int) (hour : Nat)
    (responses : Nat → RR) : RR × Nat :=
  let rr := responses 0
  if attempts ≤ 1 then (rr, 1)
  else if looks_stale rr max_decks hour then
    let rr1 := responses 1
    if 3 ≤ attempts ∧ looks_stale rr1 max_decks hour = true then (responses 2, 3)
    else (rr1, 2)
  else (rr, 1)

/-- C4: the fetch count of `get_current_river_fresh` is 1 when
`attempts <= 1`; for `attempts == 2` it is 2 exactly when the first
response is flagged stale; for `attempts >= 3` with both first and second
responses flagged stale it is 3; the returned payload is always the last
response fetched; and a refetch happens only on suspected staleness (a
second fetch implies the first response was flagged stale, a third fetch
implies the second was too). -/
theorem get_current_river_fresh_spec (attempts max_decks : Int) (hour : Nat)
    (responses : Nat → RR) :
    (attempts ≤ 1 → get_current_river_fresh attempts max_decks hour responses =
      (responses 0, 1)) ∧
    (attempts = 2 → (get_current_river_fresh attempts max_decks hour responses).2 =
      if looks_stale (responses 0) max_decks hour then 2 else 1) ∧
    (3 ≤ attempts → looks_stale (responses 0) max_decks hour = true →
      looks_stale (responses 1) max_decks hour = true →
      get_current_river_fresh attempts max_decks hour responses = (responses 2, 3)) ∧
    ((get_current_river_fresh attempts max_decks hour responses).1 =
      responses ((get_current_river_fresh attempts max_decks hour responses).2 - 1)) ∧
    (2 ≤ (get_current_river_fresh attempts max_decks hour responses).2 →
      looks_stale (responses 0) max_decks hour = true) ∧
    ((get_current_river_fresh attempts max_decks hour responses).2 = 3 →
      looks_stale (responses 1) max_decks hour = true ∧ 3 ≤ attempts) := by
  by_cases h1 : attempts ≤ 1
  · have hv : get_current_river_fresh attempts max_decks hour responses =
        (responses 0, 1) := by
      unfold get_current_river_fresh; rw [if_pos h1]
    rw [hv]
    refine ⟨fun _ => rfl, fun h => absurd h (by omega), fun h => absurd h (by omega),
      rfl, fun h => by simp at h, fun h => by simp at h⟩
  · by_cases h2 : looks_stale (responses 0) max_decks hour = true
    · by_cases h3 : 3 ≤ attempts ∧ looks_stale (responses 1) max_decks hour = true
      · have hv : get_current_river_fresh attempts max_decks hour responses =
            (responses 2, 3) := by
          unfold get_current_river_fresh; rw [if_neg h1, if_pos h2, if_pos h3]
        rw [hv]
        exact ⟨fun h => absurd h h1, fun h => absurd h3.1 (by omega),
          fun _ _ _ => rfl, rfl, fun _ => h2, fun _ => ⟨h3.2, h3.1⟩⟩
      · have hv : get_current_river_fresh attempts max_decks hour responses =
            (responses 1, 2) := by
          unfold get_current_river_fresh; rw [if_neg h1, if_pos h2, if_neg h3]
        rw [hv]
        exact ⟨fun h => absurd h h1, fun _ => by rw [if_pos h2],
          fun ha _ hc => absurd ⟨ha, hc⟩ h3, rfl, fun _ => h2, fun h => by simp at h⟩
    · have hv : get_current_river_fresh attempts max_decks hour responses =
          (responses 0, 1) := by
        unfold get_current_river_fresh; rw [if_neg h1, if_neg h2]
      rw [hv]
      exact ⟨fun h => absurd h h1, fun _ => by rw [if_neg h2], fun _ hb => absurd hb h2,
        rfl, fun h => by simp at h, fun h => by simp at h⟩

theorem get_current_river_fresh_witness :
    get_current_river_fresh 3 4 18 (fun _ => ex80) = ((fun _ => ex80) 2, 3) :=
  (get_current_river_fresh_spec 3 4 18 (fun _ => ex80)).2.2.1 (by norm_num)
    ex80_stale18 ex80_stale18

/-! ## Opponent selector (`clash.py`, `_pick_best_opponent`) -/

/-- One entry of the `enemy_list` built by `_pick_best_opponent`. -/
structure Candidate where
  tag : String
  name : String
  fame : Int
  period_points : Int
  participants : Nat
  active_players : Nat
  total_decks_used : Int
  total_decks_today : Int
  activity_score : ℚ
  clan_data : WarClan
  deriving Repr, DecidableEq

/-- The candidate record built for one clan of `all_clans` (the float
weights `0.4`, `50`, `10` are embedded as exact rationals). -/
def mkCandidate (c : WarClan) : Candidate :=
  let fame := c.fame
  let period_points := c.periodPoints
  let ps := c.participants
  let active_players := (ps.filter fun p => 0 < p.fame).length
  let total_decks_used := (ps.map Participant.decksUsed).sum
  let total_decks_today := (ps.map Participant.decksUsedToday).sum
  let activity_score : ℚ :=
    (fame : ℚ) * (4/10) + (period_points : ℚ) * (4/10) +
      (active_players : ℚ) * 50 + (total_decks_used : ℚ) * 10
  { tag := c.normTagOf, name := c.name.getD "Unbekannt",
    fame := fame, period_points := period_points,
    participants := ps.length, active_players := active_players,
    total_decks_used := total_decks_used, total_decks_today := total_decks_today,
    activity_score := activity_score, clan_data := c }

/-- The `all_clans` list scanned by `_pick_best_opponent`:
`rr.get("clans") or []`, with the top-level clan appended when it is
present and its normalized tag differs from the own tag. -/
def allClansOf (rr : RR) (myTag : String) : List WarClan :=
  let base := rr.clans.getD []
  match rr.clan with
  | none => base
  | some c => if c.normTagOf = myTag then base else base ++ [c]

/-- The `enemy_list`: candidates for every clan of `all_clans` whose
normalized tag is neither empty nor the own tag. -/
def candidatesOf (rr : RR) (myTag : String) : List Candidate :=
  (allClansOf rr myTag).filterMap fun c =>
    if c.normTagOf = "" ∨ c.normTagOf = myTag then none else some (mkCandidate c)

/-- Embedding of Python `max(list, key=...)` (first maximal element wins;
a later element replaces the current best only when strictly greater). -/
def pyMaxBy {α β : Type} [LinearOrder β] (key : α → β) : List α → Option α
  | [] => none
  | x :: xs => some (xs.foldl (fun b c => if key b < key c then c else b) x)

/-- The payload as left behind by `_pick_best_opponent`: the
`all_clans.append(our_clan)` call mutates `rr["clans"]` exactly when that
key holds a non-empty list (otherwise `rr.get("clans") or []` is a fresh
list) and the top-level clan exists with a tag differing from the own tag. -/
def pickMutated (rr : RR) (myTag : String) : RR :=
  match rr.clan with
  | none => rr
  | some c =>
    if c.normTagOf = myTag then rr
    else
      match rr.clans with
      | some (l0 :: ls) => { rr with clans := some ((l0 :: ls) ++ [c]) }
      | _ => rr

/-- Embedding of `_pick_best_opponent(client, rr, my_tag_nohash)`
(`clash.py` lines 240-306), returning the selected candidate together with
the (possibly mutated) input payload. -/
def pick_best_opponent (rr : RR) (my_tag_nohash : String) : Option Candidate × RR :=
  let myTag := normTag my_tag_nohash
  let enemy_list := candidatesOf rr myTag
  let rr2 := pickMutated rr myTag
  match pyMaxBy Candidate.activity_score enemy_list with
  | none => (none, rr2)
  | some best =>
    if best.activity_score = 0 then
      (pyMaxBy (fun c => c.participants) enemy_list, rr2)
    else (some best, rr2)

theorem pyMaxBy_foldl_mem {α β : Type} [LinearOrder β] (key : α → β) :
    ∀ (xs : List α) (x : α),
      xs.foldl (fun b c => if key b < key c then c else b) x ∈ x :: xs := by
  intro xs
  induction xs with
  | nil => intro x; simp
  | cons y ys ih =>
    intro x
    simp only [List.foldl_cons]
    by_cases hk : key x < key y
    · rw [if_pos hk]
      rcases List.mem_cons.mp (ih y) with h1 | h1
      · simp [h1]
      · simp [List.mem_cons, h1]
    · rw [if_neg hk]
      rcases List.mem_cons.mp (ih x) with h1 | h1
      · simp [h1]
      · simp [List.mem_cons, h1]

theorem pyMaxBy_foldl_ge {α β : Type} [LinearOrder β] (key : α → β) :
    ∀ (xs : List α) (x : α) (a : α), a ∈ x :: xs →
      key a ≤ key (xs.foldl (fun b c => if key b < key c then c else b) x) := by
  intro xs
  induction xs with
  | nil =>
    intro x a ha
    rcases List.mem_cons.mp ha with h | h
    · subst h; simp
    · simp at h
  | cons y ys ih =>
    intro x a ha
    simp only [List.foldl_cons]
    have hxy : key x ≤ key (if key x < key y then y else x) ∧
        key y ≤ key (if key x < key y then y else x) := by
      by_cases hk : key x < key y
      · rw [if_pos hk]; exact ⟨le_of_lt hk, le_refl _⟩
      · rw [if_neg hk]; exact ⟨le_refl _, le_of_not_lt hk⟩
    rcases List.mem_cons.mp ha with h | h
    · subst h
      exact le_trans hxy.1 (ih _ _ (List.mem_cons_self _ _))
    · rcases List.mem_cons.mp h with h1 | h1
      · subst h1
        exact le_trans hxy.2 (ih _ _ (List.mem_cons_self _ _))
      · exact ih _ _ (List.mem_cons.mpr (Or.inr h1))

theorem pyMaxBy_mem {α β : Type} [LinearOrder β] (key : α → β) (l : List α) (b : α)
    (h : pyMaxBy key l = some b) : b ∈ l := by
  cases l with
  | nil => simp [pyMaxBy] at h
  | cons x xs =>
    simp only [pyMaxBy, Option.some_inj] at h
    rw [← h]
    exact pyMaxBy_foldl_mem key xs x

theorem pyMaxBy_ge {α β : Type} [LinearOrder β] (key : α → β) (l : List α) (b : α)
    (h : pyMaxBy key l = some b) : ∀ a ∈ l, key a ≤ key b := by
  cases l with
  | nil => simp
  | cons x xs =>
    simp only [pyMaxBy, Option.some_inj] at h
    intro a ha
    rw [← h]
    exact pyMaxBy_foldl_ge key xs x a ha

theorem pyMaxBy_isSome {α β : Type} [LinearOrder β] (key : α → β) (l : List α)
    (h : l ≠ []) : ∃ b, pyMaxBy key l = some b := by
  cases l with
  | nil => exact absurd rfl h
  | cons x xs => exact ⟨_, rfl⟩

/-- The maximum activity score of the candidate list is exactly 0. -/
def maxScoreZero (cands : List Candidate) : Prop :=
  (∀ a ∈ cands, a.activity_score ≤ 0) ∧ ∃ a ∈ cands, a.activity_score = 0

theorem pick_fst_cases (rr : RR) (my_tag_nohash : String) :
    (candidatesOf rr (normTag my_tag_nohash) = [] →
      (pick_best_opponent rr my_tag_nohash).1 = none) ∧
    (candidatesOf rr (normTag my_tag_nohash) ≠ [] →
      ∃ b, (pick_best_opponent rr my_tag_nohash).1 = some b ∧
        b ∈ candidatesOf rr (normTag my_tag_nohash) ∧
        (¬ maxScoreZero (candidatesOf rr (normTag my_tag_nohash)) →
          ∀ a ∈ candidatesOf rr (normTag my_tag_nohash),
            a.activity_score ≤ b.activity_score) ∧
        (maxScoreZero (candidatesOf rr (normTag my_tag_nohash)) →
          ∀ a ∈ candidatesOf rr (normTag my_tag_nohash),
            a.participants ≤ b.participants)) := by
  constructor
  · intro h
    simp [pick_best_opponent, h, pyMaxBy]
  · intro h
    obtain ⟨m, hm⟩ := pyMaxBy_isSome Candidate.activity_score _ h
    have hmem := pyMaxBy_mem _ _ _ hm
    have hge := pyMaxBy_ge _ _ _ hm
    by_cases hz : m.activity_score = 0
    · obtain ⟨b2, hb2⟩ := pyMaxBy_isSome (fun c : Candidate => c.participants) _ h
      refine ⟨b2, ?_, pyMaxBy_mem _ _ _ hb2, ?_, ?_⟩
      · simp only [pick_best_opponent, hm]
        rw [if_pos hz]
        exact hb2
      · intro hnz
        exact absurd ⟨fun a ha => hz ▸ hge a ha, m, hmem, hz⟩ hnz
      · intro _
        exact pyMaxBy_ge _ _ _ hb2
    · refine ⟨m, ?_, hmem, fun _ => hge, ?_⟩
      · simp only [pick_best_opponent, hm]
        rw [if_neg hz]
      · intro hmz
        obtain ⟨hle, a, ha, haz⟩ := hmz
        have h1 : m.activity_score ≤ 0 := hle m hmem
        have h2 : a.activity_score ≤ m.activity_score := hge a ha
        exact absurd (le_antisymm h1 (haz ▸ h2)) hz

/-- A zero-activity war: the own clan plus two opposing clans, one with 30
participants and one with 10, every participant fully inactive. -/
def clanZ30 : WarClan :=
  { tag := some "Z30", name := some "Big", participants := List.replicate 30 {} }

/-- The 10-participant fully inactive opposing clan. -/
def clanZ10 : WarClan :=
  { tag := some "Z10", name := some "Small", participants := List.replicate 10 {} }

/-- Current-war payload with the two zero-score candidates. -/
def exZero : RR :=
  { clan := some { tag := some "MY" }, clans := some [clanZ30, clanZ10] }

theorem mkCandidate_zero_score (c : WarClan)
    (hact : (c.participants.filter fun p => 0 < p.fame).length = 0)
    (hdecks : (c.participants.map Participant.decksUsed).sum = 0)
    (hfame : c.fame = 0) (hpp : c.periodPoints = 0) :
    (mkCandidate c).activity_score = 0 := by
  show (c.fame : ℚ) * (4/10) + (c.periodPoints : ℚ) * (4/10) +
      (((c.participants.filter fun p => 0 < p.fame).length : Nat) : ℚ) * 50 +
      ((c.participants.map Participant.decksUsed).sum : ℚ) * 10 = 0
  rw [hact, hdecks, hfame, hpp]
  norm_num

theorem exZero_candidates :
    candidatesOf exZero (normTag "MY") = [mkCandidate clanZ30, mkCandidate clanZ10] :=
  rfl

theorem pick_zero_concrete :
    (pick_best_opponent exZero "MY").1 = some (mkCandidate clanZ30) := by
  have h30 : (mkCandidate clanZ30).activity_score = 0 :=
    mkCandidate_zero_score clanZ30 (by decide) (by decide) (by decide) (by decide)
  have h10 : (mkCandidate clanZ10).activity_score = 0 :=
    mkCandidate_zero_score clanZ10 (by decide) (by decide) (by decide) (by decide)
  have hmax : pyMaxBy Candidate.activity_score
      (candidatesOf exZero (normTag "MY")) = some (mkCandidate clanZ30) := by
    rw [exZero_candidates]
    show some (if (mkCandidate clanZ30).activity_score <
        (mkCandidate clanZ10).activity_score
      then mkCandidate clanZ10 else mkCandidate clanZ30) = some (mkCandidate clanZ30)
    rw [if_neg (by rw [h30, h10]; exact lt_irrefl 0)]
  have hparts : pyMaxBy (fun c : Candidate => c.participants)
      (candidatesOf exZero (normTag "MY")) = some (mkCandidate clanZ30) := by
    rw [exZero_candidates]
    show some (if (mkCandidate clanZ30).participants <
        (mkCandidate clanZ10).participants
      then mkCandidate clanZ10 else mkCandidate clanZ30) = some (mkCandidate clanZ30)
    rw [if_neg (by decide : ¬ (mkCandidate clanZ30).participants <
      (mkCandidate clanZ10).participants)]
  simp only [pick_best_opponent, hmax]
  rw [if_pos h30]
  exact hparts

/-- C5: for every current-war payload, each candidate clan (normalized tag
non-empty and different from the own tag) is scored
`0.4*fame + 0.4*periodPoints + 50*active_players + 10*total_decks_used`
with `active_players` counting participants of positive fame; the selector
returns a candidate of maximal activity score, except that when the
maximal score is exactly 0 it returns a candidate with the most
participants; it returns none when there are no opposing clans; and on the
concrete two-clan zero-score payload it returns the 30-participant clan. -/
theorem pick_best_opponent_spec :
    (∀ (rr : RR) (my : String), ∀ c ∈ candidatesOf rr (normTag my),
      c.activity_score =
        (c.fame : ℚ) * (4/10) + (c.period_points : ℚ) * (4/10) +
          (c.active_players : ℚ) * 50 + (c.total_decks_used : ℚ) * 10 ∧
      c.active_players = (c.clan_data.participants.filter fun p => 0 < p.fame).length) ∧
    (∀ (rr : RR) (my : String), candidatesOf rr (normTag my) = [] →
      (pick_best_opponent rr my).1 = none) ∧
    (∀ (rr : RR) (my : String), candidatesOf rr (normTag my) ≠ [] →
      ∃ b, (pick_best_opponent rr my).1 = some b ∧
        b ∈ candidatesOf rr (normTag my) ∧
        (¬ maxScoreZero (candidatesOf rr (normTag my)) →
          ∀ a ∈ candidatesOf rr (normTag my), a.activity_score ≤ b.activity_score) ∧
        (maxScoreZero (candidatesOf rr (normTag my)) →
          ∀ a ∈ candidatesOf rr (normTag my), a.participants ≤ b.participants)) ∧
    (pick_best_opponent exZero "MY").1 = some (mkCandidate clanZ30) := by
  refine ⟨?_, fun rr my => (pick_fst_cases rr my).1, fun rr my => (pick_fst_cases rr my).2,
    pick_zero_concrete⟩
  intro rr my c hc
  simp only [candidatesOf, List.mem_filterMap] at hc
  obtain ⟨c0, -, hc0⟩ := hc
  by_cases hsk : c0.normTagOf = "" ∨ c0.normTagOf = normTag my
  · rw [if_pos hsk] at hc0; exact absurd hc0 (by simp)
  · rw [if_neg hsk] at hc0
    injection hc0 with hc0
    subst hc0
    exact ⟨rfl, rfl⟩

theorem pick_best_opponent_spec_witness :
    (pick_best_opponent { clan := none, clans := none } "MY").1 = none :=
  pick_best_opponent_spec.2.1 { clan := none, clans := none } "MY" (by decide)

/-! ## Payload mutation by `_pick_best_opponent` (frame effect) -/

theorem pick_snd (rr : RR) (my_tag_nohash : String) :
    (pick_best_opponent rr my_tag_nohash).2 = pickMutated rr (normTag my_tag_nohash) := by
  unfold pick_best_opponent
  rcases h : pyMaxBy Candidate.activity_score (candidatesOf rr (normTag my_tag_nohash))
    with _ | b
  · simp [h]
  · by_cases hz : b.activity_score = 0 <;> simp [h, hz]

/-- The concrete payload refuting C10 as stated: the top-level clan exists
with a tag different from the own tag, but the `clans` key holds an empty
list, so `rr.get("clans") or []` builds a fresh list and the payload is
not mutated. -/
def exCx : RR := { clan := some { tag := some "AA" }, clans := some [] }

/-- C10 counterexample: on `exCx` with own tag `BB`, the top-level clan
exists and its normalized tag differs from the own tag, yet the payload is
left unchanged (its `clans` list does not receive the appended clan),
contradicting the claim that the append mutates the payload in every such
case (and that tag equality is the only unmodified case). -/
theorem pick_best_opponent_no_mutation_cx :
    exCx.clan = some { tag := some "AA" } ∧
    WarClan.normTagOf { tag := some "AA" } ≠ normTag "BB" ∧
    (pick_best_opponent exCx "BB").2 = exCx ∧
    (pick_best_opponent exCx "BB").2.clans ≠
      some ([] ++ [({ tag := some "AA" } : WarClan)]) := by
  have h2 : (pick_best_opponent exCx "BB").2 = exCx := by
    rw [pick_snd]; decide
  refine ⟨rfl, by decide, h2, ?_⟩
  rw [h2]
  decide

/-- C10 (amended): `_pick_best_opponent` leaves the payload unchanged
unless the top-level clan exists, its normalized tag differs from the own
tag, and the `clans` key holds a non-empty list; exactly in that case the
top-level clan object is appended to the payload's `clans` list. -/
theorem pick_best_opponent_mutation :
    (∀ (rr : RR) (my : String), rr.clan = none →
      (pick_best_opponent rr my).2 = rr) ∧
    (∀ (rr : RR) (my : String) (c : WarClan), rr.clan = some c →
      c.normTagOf = normTag my → (pick_best_opponent rr my).2 = rr) ∧
    (∀ (rr : RR) (my : String) (c : WarClan), rr.clan = some c →
      c.normTagOf ≠ normTag my → rr.clans = none →
      (pick_best_opponent rr my).2 = rr) ∧
    (∀ (rr : RR) (my : String) (c : WarClan), rr.clan = some c →
      c.normTagOf ≠ normTag my → rr.clans = some [] →
      (pick_best_opponent rr my).2 = rr) ∧
    (∀ (rr : RR) (my : String) (c : WarClan) (l : List WarClan),
      rr.clan = some c → c.normTagOf ≠ normTag my → rr.clans = some l → l ≠ [] →
      (pick_best_opponent rr my).2 = { rr with clans := some (l ++ [c]) }) := by
  refine ⟨?_, ?_, ?_, ?_, ?_⟩
  · intro rr my h
    rw [pick_snd]
    unfold pickMutated
    rw [h]
  · intro rr my c h ht
    rw [pick_snd]
    unfold pickMutated
    rw [h]
    simp [ht]
  · intro rr my c h ht hc
    rw [pick_snd]
    unfold pickMutated
    rw [h]
    simp only [if_neg ht]
    rw [hc]
  · intro rr my c h ht hc
    rw [pick_snd]
    unfold pickMutated
    rw [h]
    simp only [if_neg ht]
    rw [hc]
  · intro rr my c l h ht hc hl
    rw [pick_snd]
    unfold pickMutated
    rw [h]
    simp only [if_neg ht]
    cases l with
    | nil => exact absurd rfl hl
    | cons l0 ls => rw [hc]

/-- Payload whose top-level clan is foreign and whose `clans` list is
non-empty: the case where `_pick_best_opponent` does mutate its input. -/
def exMut : RR := { clan := some { tag := some "XX" }, clans := some [clanZ30] }

theorem pick_best_opponent_mutation_witness :
    (pick_best_opponent exMut "MY").2 =
      { exMut with clans := some ([clanZ30] ++ [({ tag := some "XX" } : WarClan)]) } :=
  pick_best_opponent_mutation.2.2.2.2 exMut "MY" { tag := some "XX" } [clanZ30]
    rfl (by decide) rfl (by decide)

/-! ## Upstream gateway error handling (`clash.py`, `ClashClient._get`;
`handlers.py`, `APIError`) -/

/-- The exception classes defined in `handlers.py` (`BotError` and its two
subclasses).  `ClashClient._get` only ever raises one of these. -/
inductive ExcClass where
  | botError
  | apiError
  | validationError
  deriving Repr, DecidableEq

/-- Outcome of the underlying HTTP transaction, as distinguished by the
`try/except` arms of `ClashClient._get`: a successful 2xx response with a
parsed JSON body, an `httpx.TimeoutException`, an `httpx.HTTPStatusError`
with a status code (raised by `raise_for_status` on a non-2xx response),
or any other exception.  `info` holds the `str(e)` exception text. -/
inductive HttpOutcome where
  | success (body : String)
  | timeoutExc (info : String)
  | statusExc (code : Nat) (info : String)
  | otherExc (info : String)
  deriving Repr, DecidableEq

/-- Result of `_get`: the parsed JSON body, or a raised exception of a
given class carrying the two `APIError` constructor strings
(`message`, `user_message`). -/
inductive GetResult where
  | ok (body : String)
  | raised (cls : ExcClass) (msg userMsg : String)
  deriving Repr, DecidableEq

/-- Embedding of `ClashClient._get` (`clash.py` lines 57-83): the mapping
from transaction outcome to returned body or raised exception.  `clanTag`
is the client's normalized clan tag (interpolated into the 404 message). -/
def clientGet (clanTag : String) (o : HttpOutcome) : GetResult :=
  match o with
  | .success b => .ok b
  | .timeoutExc e =>
    .raised .apiError ("API Timeout: " ++ e)
      "Die Clash Royale API antwortet nicht rechtzeitig."
  | .statusExc code _ =>
    if code = 404 then
      .raised .apiError ("Clan nicht gefunden: " ++ clanTag)
        "Der angegebene Clan wurde nicht gefunden."
    else if code = 403 then
      .raised .apiError "API Token ungültig"
        "Clash Royale API Token ist ungültig oder abgelaufen."
    else if code = 429 then
      .raised .apiError "API Rate Limit erreicht"
        "Zu viele API-Anfragen. Bitte versuchen Sie es später erneut."
    else
      .raised .apiError ("API Fehler: " ++ toString code)
        "Fehler beim Abrufen der Daten von Clash Royale."
  | .otherExc e =>
    .raised .apiError ("Unerwarteter Fehler: " ++ e)
      "Ein unerwarteter Fehler ist beim API-Aufruf aufgetreten."

/-- The exception class raised by a `_get` result, `none` on success. -/
def GetResult.raisedClass : GetResult → Option ExcClass
  | .ok _ => none
  | .raised cls _ _ => some cls

/-- C6 counterexample: `_get` does not raise a distinct typed error per
failure class — each failure class raises the same exception class
`APIError`; in particular the errors raised on HTTP 404 and on HTTP 403
have the same type, as do timeout, 429 and generic 500 failures. -/
theorem clientGet_single_class_cx :
    (clientGet "T" (.statusExc 404 "")).raisedClass =
      (clientGet "T" (.statusExc 403 "")).raisedClass ∧
    (clientGet "T" (.statusExc 404 "")).raisedClass = some ExcClass.apiError ∧
    (clientGet "T" (.timeoutExc "t")).raisedClass = some ExcClass.apiError ∧
    (clientGet "T" (.statusExc 429 "")).raisedClass = some ExcClass.apiError ∧
    (clientGet "T" (.statusExc 500 "")).raisedClass = some ExcClass.apiError :=
  ⟨rfl, rfl, rfl, rfl, rfl⟩

/-- C6 (amended): for every upstream outcome, `_get` raises the single
exception type `APIError` with a failure-class-specific message: on
transport timeout `"API Timeout: ..."`, on HTTP 404
`"Clan nicht gefunden: <tag>"`, on HTTP 403 `"API Token ungültig"`, on
HTTP 429 `"API Rate Limit erreicht"`, on any other non-2xx status
`"API Fehler: <status>"` (the status carried in the message text), and on
any other transport failure `"Unerwarteter Fehler: ..."`; on a 2xx
response it returns the parsed JSON body and raises nothing. -/
theorem clientGet_mapping (clanTag body e : String) (code : Nat) :
    clientGet clanTag (.success body) = .ok body ∧
    clientGet clanTag (.timeoutExc e) =
      .raised .apiError ("API Timeout: " ++ e)
        "Die Clash Royale API antwortet nicht rechtzeitig." ∧
    (code = 404 → clientGet clanTag (.statusExc code e) =
      .raised .apiError ("Clan nicht gefunden: " ++ clanTag)
        "Der angegebene Clan wurde nicht gefunden.") ∧
    (code = 403 → clientGet clanTag (.statusExc code e) =
      .raised .apiError "API Token ungültig"
        "Clash Royale API Token ist ungültig oder abgelaufen.") ∧
    (code = 429 → clientGet clanTag (.statusExc code e) =
      .raised .apiError "API Rate Limit erreicht"
        "Zu viele API-Anfragen. Bitte versuchen Sie es später erneut.") ∧
    (code ≠ 404 → code ≠ 403 → code ≠ 429 →
      clientGet clanTag (.statusExc code e) =
        .raised .apiError ("API Fehler: " ++ toString code)
          "Fehler beim Abrufen der Daten von Clash Royale.") ∧
    clientGet clanTag (.otherExc e) =
      .raised .apiError ("Unerwarteter Fehler: " ++ e)
        "Ein unerwarteter Fehler ist beim API-Aufruf aufgetreten." := by
  refine ⟨rfl, rfl, ?_, ?_, ?_, ?_, rfl⟩
  · intro h; subst h; rfl
  · intro h; subst h; rfl
  · intro h; subst h; rfl
  · intro h404 h403 h429
    simp only [clientGet, if_neg h404, if_neg h403, if_neg h429]

theorem clientGet_mapping_witness :
    clientGet "T" (.statusExc 500 "boom") =
      .raised .apiError ("API Fehler: " ++ toString 500)
        "Fehler beim Abrufen der Daten von Clash Royale." :=
  (clientGet_mapping "T" "b" "boom" 500).2.2.2.2.2.1
    (by decide) (by decide) (by decide)

/-! ## Clan member payload and the donation leaderboard
(`formatters.py`, `fmt_donations_leaderboard`) -/

/-- One member of the `/members` payload (also one entry of a clan
payload's `memberList`).  `daysOffline` abstracts the value
`(datetime.now(utc) - parse_sc_time(lastSeen)).total_seconds() / 86400`
computed by `fmt_inactive_players`, `0` when `lastSeen` is absent or
unparseable (it depends on the wall clock, so it is carried as data). -/
structure Member where
  tag : Option String := none
  name : Option String := none
  role : Option String := none
  donations : Int := 0
  donationsReceived : Int := 0
  trophies : Int := 0
  clanRank : Option Int := none
  expLevel : Int := 1
  daysOffline : ℚ := 0
  deriving Repr, DecidableEq

/-- The `/members` payload. -/
structure MembersPayload where
  items : List Member := []
  deriving Repr, DecidableEq

/-- One row `(donated, received, name)` of the donation leaderboard. -/
abbrev DonRow := Int × Int × String

/-- The unsorted rows built from the members payload. -/
def donationRows (members : MembersPayload) : List DonRow :=
  members.items.map fun m =>
    (m.donations, m.donationsReceived, m.name.getD "Unbekannt")

/-- The Python sort key `(-donated, name.lower())` as a Bool comparator
(lexicographic: higher donations first, then case-folded name ascending). -/
def donRowLe (a b : DonRow) : Bool :=
  if b.1 < a.1 then true
  else if a.1 < b.1 then false
  else strLe (strLower a.2.2) (strLower b.2.2)

/-- `rows.sort(key=lambda x: (-x[0], x[2].lower()))`: Python's sort is a
stable sort by the key, embedded as a stable merge sort under `donRowLe`. -/
def donationRowsSorted (members : MembersPayload) : List DonRow :=
  (donationRows members).mergeSort donRowLe

/-- The rows actually listed: truncated to `limit` when
`isinstance(limit, int) and limit > 0`, all rows otherwise. -/
def donationRowsOut (members : MembersPayload) (limit : Int) : List DonRow :=
  if 0 < limit then (donationRowsSorted members).take limit.toNat
  else donationRowsSorted members

/-- Python `f"{s:>w}"`-style right justification. -/
def rjust (w : Nat) (s : String) : String :=
  if s.length < w then String.mk (List.replicate (w - s.length) ' ') ++ s else s

/-- Embedding of `fmt_donations_leaderboard(members_payload, limit,
include_received)` (`formatters.py` lines 343-371). -/
def fmt_donations_leaderboard (members : MembersPayload) (limit : Int)
    (include_received : Bool) : String :=
  let rows := donationRowsOut members limit
  let total_donated := ((donationRows members).map (·.1)).sum
  let total_received := ((donationRows members).map (·.2.1)).sum
  let lines := ["🎁 <b>Spenden-Rangliste</b> (diese Woche)\n"] ++
    ((List.enumFrom 1 rows).map fun ir =>
      rjust 2 (toString ir.1) ++ ". " ++ ir.2.2.2 ++ " — gespendet: <b>" ++
        toString ir.2.1 ++ "</b>" ++
        (if include_received then " | erhalten: " ++ toString ir.2.2.1 else "")) ++
    ["\nΣ gespendet: " ++ toString total_donated ++
      (if include_received then " | Σ erhalten: " ++ toString total_received else "")]
  strTake (String.intercalate "\n" lines) 4096

/-- The order the claim asserts between adjacent rows: donations strictly
descending, or equal donations and case-folded names ascending. -/
def donOrdered (a b : DonRow) : Prop :=
  b.1 < a.1 ∨ (a.1 = b.1 ∧ strLe (strLower a.2.2) (strLower b.2.2) = true)

theorem donRowLe_trans (a b c : DonRow) (h1 : donRowLe a b = true)
    (h2 : donRowLe b c = true) : donRowLe a c = true := by
  unfold donRowLe at h1 h2 ⊢
  by_cases hba : b.1 < a.1
  · rw [if_pos hba] at h1
    by_cases hcb : c.1 < b.1
    · rw [if_pos (by omega)]
    · rw [if_neg hcb] at h2
      by_cases hbc : b.1 < c.1
      · rw [if_pos hbc] at h2; exact absurd h2 (by simp)
      · rw [if_pos (by omega)]
  · rw [if_neg hba] at h1
    by_cases hab : a.1 < b.1
    · rw [if_pos hab] at h1; exact absurd h1 (by simp)
    · rw [if_neg hab] at h1
      by_cases hcb : c.1 < b.1
      · rw [if_pos (by omega)]
      · rw [if_neg hcb] at h2
        by_cases hbc : b.1 < c.1
        · rw [if_pos hbc] at h2; exact absurd h2 (by simp)
        · rw [if_neg hbc] at h2
          rw [if_neg (by omega), if_neg (by omega)]
          exact strLe_trans _ _ _ h1 h2

theorem donRowLe_total (a b : DonRow) : (donRowLe a b || donRowLe b a) = true := by
  unfold donRowLe
  by_cases hba : b.1 < a.1
  · rw [if_pos hba]; simp
  · by_cases hab : a.1 < b.1
    · rw [if_neg hba, if_pos hab, if_pos hab]; simp
    · rw [if_neg hba, if_neg hab, if_neg hab, if_neg hba]
      exact strLe_total _ _

theorem donRowLe_iff (a b : DonRow) : donRowLe a b = true ↔ donOrdered a b := by
  unfold donRowLe donOrdered
  by_cases hba : b.1 < a.1
  · rw [if_pos hba]
    simp [hba]
  · rw [if_neg hba]
    by_cases hab : a.1 < b.1
    · rw [if_pos hab]
      constructor
      · intro h; simp at h
      · rintro (h | ⟨heq, -⟩)
        · exact absurd h hba
        · exact absurd hab (by omega)
    · rw [if_neg hab]
      have heq : a.1 = b.1 := by omega
      simp [heq, hba]

/-- C7: the donation leaderboard rows are sorted by donations descending
with ties broken by case-insensitive name ascending (a deterministic
function of the input); a positive `limit` truncates the sorted rows to
`limit` entries, and the sentinel `limit = 0` yields all rows (a
permutation of the input rows). -/
theorem donations_leaderboard_spec (members : MembersPayload) (limit : Int) :
    (donationRowsSorted members).Pairwise donOrdered ∧
    (donationRowsSorted members).Perm (donationRows members) ∧
    (0 < limit → donationRowsOut members limit =
      (donationRowsSorted members).take limit.toNat) ∧
    (limit = 0 → donationRowsOut members limit = donationRowsSorted members) ∧
    (donationRowsOut members limit).Pairwise donOrdered ∧
    (0 < limit → (donationRowsOut members limit).length =
      min limit.toNat (members.items.length)) := by
  have hsorted : (donationRowsSorted members).Pairwise donOrdered := by
    have h := List.sorted_mergeSort
      (fun a b c => donRowLe_trans a b c)
      (fun a b => donRowLe_total a b) (donationRows members)
    exact h.imp fun hab => (donRowLe_iff _ _).mp hab
  have hperm : (donationRowsSorted members).Perm (donationRows members) :=
    List.mergeSort_perm (donationRows members) donRowLe
  refine ⟨hsorted, hperm, fun hl => ?_, fun hl => ?_, ?_, fun hl => ?_⟩
  · unfold donationRowsOut
    rw [if_pos hl]
  · unfold donationRowsOut
    rw [if_neg (by omega)]
  · unfold donationRowsOut
    by_cases hl : 0 < limit
    · rw [if_pos hl]
      exact hsorted.sublist (List.take_sublist _ _)
    · rw [if_neg hl]
      exact hsorted
  · unfold donationRowsOut
    rw [if_pos hl, List.length_take]
    unfold donationRowsSorted
    rw [List.length_mergeSort]
    simp [donationRows]

/-- A concrete members payload: a donation tie between `bob` and `Ann`. -/
def exMembers : MembersPayload :=
  { items :=
      [ { name := some "bob", donations := 50, donationsReceived := 3 },
        { name := some "Ann", donations := 50, donationsReceived := 1 },
        { name := some "carl", donations := 120 } ] }

theorem donations_leaderboard_spec_witness :
    donationRowsOut exMembers 2 = (donationRowsSorted exMembers).take (Int.toNat 2) ∧
    (donationRowsOut exMembers 2).length = min (Int.toNat 2) exMembers.items.length :=
  ⟨(donations_leaderboard_spec exMembers 2).2.2.1 (by norm_num),
   (donations_leaderboard_spec exMembers 2).2.2.2.2.2 (by norm_num)⟩

/-! ## Inactivity scorer (`formatters.py`, `fmt_inactive_players`) -/

/-- The per-member record assembled by `fmt_inactive_players`
(`player_scores.append({...})`). -/
structure PlayerScore where
  name : String
  tag : String
  role : String
  donations : Int
  donations_received : Int
  decks_used : Int
  fame : Int
  boat_attacks : Int
  trophies : Int
  clan_rank : Int
  days_offline : ℚ
  donations_score : ℚ
  war_attacks_score : ℚ
  war_points_score : ℚ
  trophy_score : ℚ
  total_score : ℚ
  deriving Repr, DecidableEq

/-- `river_data.get("clan", {}).get("participants", [])`. -/
def riverParticipants (river : RR) : List Participant :=
  (river.clan.getD {}).participants

/-- The dictionary `river_participants[tag] = p` built over the own-clan
participants: keyed by normalized tag, a later entry overwriting an
earlier one with the same tag (hence the last match). -/
def riverLookup (ps : List Participant) (tag : String) : Option Participant :=
  (ps.filter fun p => normTag (p.tag.getD "") = tag).getLast?

/-- `historical_performance`: empty when no river log is passed
(`river_log_data` falsy), else `_aggregate_war_history(river_log_data, "")`
— note the own-clan tag is the empty string here. -/
def historicalPerformance (riverLog : Option RiverLog) : WarAcc :=
  match riverLog with
  | none => []
  | some rlog => aggregate_war_history rlog ""

/-- The per-member score computation of `fmt_inactive_players`
(`formatters.py` lines 738-827).  Float constants are embedded as exact
rationals; `config.MAX_DECKS_PER_DAY = 4`. -/
def scoreMember (hist : WarAcc) (rp : List Participant) (m : Member) : PlayerScore :=
  let tag := normTag (m.tag.getD "")
  let name := m.name.getD "Unbekannt"
  let role := m.role.getD "member"
  let donations := m.donations
  let ri := riverLookup rp tag
  let decks_used := (ri.map Participant.decksUsed).getD 0
  let fame := (ri.map Participant.fame).getD 0
  let boat_attacks := (ri.map Participant.boatAttacks).getD 0
  let trophies := m.trophies
  let clan_rank := m.clanRank.getD 50
  let days_offline := m.daysOffline
  let donations_score : ℚ := 1000 - (donations : ℚ)
  let he := lookupEntry hist tag
  let historical_wars : Int := (he.map WarAgg.wars).getD 0
  let historical_decks : Int := (he.map WarAgg.decks).getD 0
  let historical_fame : Int := (he.map WarAgg.fame).getD 0
  let total_possible_decks : ℚ := 4 * 2
  let expected_decks : ℚ :=
    if 0 < historical_wars then
      min ((historical_decks : ℚ) / (historical_wars : ℚ) * 2) total_possible_decks
    else total_possible_decks
  let war_attacks_score : ℚ := (expected_decks - (decks_used : ℚ)) * 100
  let expected_fame : ℚ :=
    if 0 < historical_wars then
      min ((historical_fame : ℚ) / (historical_wars : ℚ)) 2000
    else 800
  let war_points_score : ℚ := expected_fame - (fame : ℚ)
  let trophy_score : ℚ :=
    (clan_rank : ℚ) * 10 + (10000 - min (trophies : ℚ) 10000) / 10
  let total_score : ℚ :=
    war_attacks_score * (35/100) + war_points_score * (30/100) +
      donations_score * (20/100) + days_offline * 5 + trophy_score * (5/100)
  { name := name, tag := tag, role := role, donations := donations,
    donations_received := m.donationsReceived, decks_used := decks_used,
    fame := fame, boat_attacks := boat_attacks, trophies := trophies,
    clan_rank := clan_rank, days_offline := days_offline,
    donations_score := donations_score, war_attacks_score := war_attacks_score,
    war_points_score := war_points_score, trophy_score := trophy_score,
    total_score := total_score }

/-- `player_scores`: one record per member, in member-list order. -/
def inactive_player_scores (members : MembersPayload) (river : RR)
    (riverLog : Option RiverLog) : List PlayerScore :=
  members.items.map
    (scoreMember (historicalPerformance riverLog) (riverParticipants river))

/-- `sort_key_map.get(sort_by.lower(), "total_score")` as a score
projection (`"gesamt"` and every unknown keyword select the total). -/
def sortKeyOf (sort_by : String) : PlayerScore → ℚ :=
  let s := strLower sort_by
  if s = "spenden" then PlayerScore.donations_score
  else if s = "kriegsangriffe" then PlayerScore.war_attacks_score
  else if s = "kriegspunkte" then PlayerScore.war_points_score
  else if s = "trophäenpfad" then PlayerScore.trophy_score
  else PlayerScore.total_score

/-- `player_scores.sort(key=lambda x: x[sort_key], reverse=True)`:
stable sort, descending in the selected score. -/
def inactive_sorted (members : MembersPayload) (river : RR)
    (riverLog : Option RiverLog) (sort_by : String) : List PlayerScore :=
  (inactive_player_scores members river riverLog).mergeSort
    (fun a b => decide (sortKeyOf sort_by b ≤ sortKeyOf sort_by a))

/-- `inactive_players = player_scores[:limit]`. -/
def inactive_top (members : MembersPayload) (river : RR)
    (riverLog : Option RiverLog) (sort_by : String) (limit : Nat) :
    List PlayerScore :=
  (inactive_sorted members river riverLog sort_by).take limit

theorem scoreMember_hist_lookup (hist₁ hist₂ : WarAcc) (rp : List Participant)
    (m : Member)
    (h : lookupEntry hist₁ (normTag (m.tag.getD "")) =
      lookupEntry hist₂ (normTag (m.tag.getD ""))) :
    scoreMember hist₁ rp m = scoreMember hist₂ rp m := by
  simp only [scoreMember]
  rw [h]

/-- An entry present in the historical aggregate has participated in at
least one war. -/
theorem hist_wars_pos (riverLog : Option RiverLog) (tag : String) (h : WarAgg)
    (hl : lookupEntry (historicalPerformance riverLog) tag = some h) :
    0 < h.wars := by
  cases riverLog with
  | none => simp [historicalPerformance, lookupEntry] at hl
  | some rlog =>
    have spec := agg_lookup_spec rlog "" tag
    have hw := (spec.2 h (by simpa [historicalPerformance] using hl)).2.2.2.2
    have hnotnil : warOccs rlog (normTag "") tag ≠ [] := by
      intro hnil
      have := spec.1.mpr hnil
      rw [show historicalPerformance (some rlog) = aggregate_war_history rlog ""
        from rfl] at hl
      rw [this] at hl
      exact Option.noConfusion hl
    have : 0 < (warOccs rlog (normTag "") tag).length :=
      List.length_pos.mpr hnotnil
    omega

theorem scoreMember_none_formulas (hist : WarAcc) (rp : List Participant)
    (m : Member) (hn : lookupEntry hist (normTag (m.tag.getD "")) = none) :
    (scoreMember hist rp m).war_attacks_score =
      (8 - ((scoreMember hist rp m).decks_used : ℚ)) * 100 ∧
    (scoreMember hist rp m).war_points_score =
      800 - ((scoreMember hist rp m).fame : ℚ) := by
  simp only [scoreMember, hn]
  norm_num

theorem scoreMember_some_formulas (hist : WarAcc) (rp : List Participant)
    (m : Member) (h : WarAgg) (hw : 0 < h.wars)
    (hs : lookupEntry hist (normTag (m.tag.getD "")) = some h) :
    (scoreMember hist rp m).war_attacks_score =
      (min (2 * ((h.decks : ℚ) / (h.wars : ℚ))) 8 -
        ((scoreMember hist rp m).decks_used : ℚ)) * 100 ∧
    (scoreMember hist rp m).war_points_score =
      min ((h.fame : ℚ) / (h.wars : ℚ)) 2000 -
        ((scoreMember hist rp m).fame : ℚ) := by
  simp only [scoreMember, hs, Option.map_some', Option.getD_some]
  rw [if_pos hw, if_pos hw]
  constructor
  · rw [mul_comm ((h.decks : ℚ) / (h.wars : ℚ)) 2]
    norm_num
  · norm_num

theorem scoreMember_base_formulas (hist : WarAcc) (rp : List Participant)
    (m : Member) :
    (scoreMember hist rp m).donations_score = 1000 - ((m.donations : Int) : ℚ) ∧
    (scoreMember hist rp m).trophy_score =
      ((m.clanRank.getD 50 : Int) : ℚ) * 10 +
        (10000 - min ((m.trophies : Int) : ℚ) 10000) / 10 ∧
    (scoreMember hist rp m).total_score =
      35/100 * (scoreMember hist rp m).war_attacks_score +
      30/100 * (scoreMember hist rp m).war_points_score +
      20/100 * (scoreMember hist rp m).donations_score +
      5 * m.daysOffline +
      5/100 * (scoreMember hist rp m).trophy_score := by
  refine ⟨rfl, rfl, ?_⟩
  have h0 : (scoreMember hist rp m).total_score =
      (scoreMember hist rp m).war_attacks_score * (35/100) +
        (scoreMember hist rp m).war_points_score * (30/100) +
        (scoreMember hist rp m).donations_score * (20/100) +
        m.daysOffline * 5 +
        (scoreMember hist rp m).trophy_score * (5/100) := rfl
  rw [h0]
  ring

/-- C2: for every member, the inactivity scorer computes
`donation_score = 1000 - donations`;
`war_attack_score = (expected_attacks - current_attacks_used) * 100` with
`expected_attacks = min(2 * historical_attacks / historical_periods, 8)`
when historical data exists and `8` otherwise;
`war_points_score = expected_score - current_fame` with
`expected_score = min(historical_fame / historical_periods, 2000)` when
historical data exists and `800` otherwise;
`trophy_score = clan_rank*10 + (10000 - min(trophies, 10000))/10`; and
`total_score = 0.35*war_attack_score + 0.30*war_points_score +
0.20*donation_score + 5*days_offline + 0.05*trophy_score`; and the output
list is ordered by the selected criterion's score descending. -/
theorem fmt_inactive_players_spec (members : MembersPayload) (river : RR)
    (riverLog : Option RiverLog) (sort_by : String) (limit : Nat) :
    (∀ m ∈ members.items,
      (scoreMember (historicalPerformance riverLog) (riverParticipants river) m).donations_score
        = 1000 - ((m.donations : Int) : ℚ) ∧
      (lookupEntry (historicalPerformance riverLog) (normTag (m.tag.getD "")) = none →
        (scoreMember (historicalPerformance riverLog) (riverParticipants river) m).war_attacks_score
          = (8 - ((scoreMember (historicalPerformance riverLog) (riverParticipants river) m).decks_used : ℚ)) * 100 ∧
        (scoreMember (historicalPerformance riverLog) (riverParticipants river) m).war_points_score
          = 800 - ((scoreMember (historicalPerformance riverLog) (riverParticipants river) m).fame : ℚ)) ∧
      (∀ h, lookupEntry (historicalPerformance riverLog) (normTag (m.tag.getD "")) = some h →
        (scoreMember (historicalPerformance riverLog) (riverParticipants river) m).war_attacks_score
          = (min (2 * ((h.decks : ℚ) / (h.wars : ℚ))) 8 -
              ((scoreMember (historicalPerformance riverLog) (riverParticipants river) m).decks_used : ℚ)) * 100 ∧
        (scoreMember (historicalPerformance riverLog) (riverParticipants river) m).war_points_score
          = min ((h.fame : ℚ) / (h.wars : ℚ)) 2000 -
              ((scoreMember (historicalPerformance riverLog) (riverParticipants river) m).fame : ℚ)) ∧
      (scoreMember (historicalPerformance riverLog) (riverParticipants river) m).trophy_score
        = ((m.clanRank.getD 50 : Int) : ℚ) * 10 +
            (10000 - min ((m.trophies : Int) : ℚ) 10000) / 10 ∧
      (scoreMember (historicalPerformance riverLog) (riverParticipants river) m).total_score
        = 35/100 * (scoreMember (historicalPerformance riverLog) (riverParticipants river) m).war_attacks_score +
          30/100 * (scoreMember (historicalPerformance riverLog) (riverParticipants river) m).war_points_score +
          20/100 * (scoreMember (historicalPerformance riverLog) (riverParticipants river) m).donations_score +
          5 * m.daysOffline +
          5/100 * (scoreMember (historicalPerformance riverLog) (riverParticipants river) m).trophy_score) ∧
    (inactive_sorted members river riverLog sort_by).Pairwise
      (fun a b => sortKeyOf sort_by b ≤ sortKeyOf sort_by a) ∧
    inactive_top members river riverLog sort_by limit =
      (inactive_sorted members river riverLog sort_by).take limit ∧
    (inactive_top members river riverLog sort_by limit).Pairwise
      (fun a b => sortKeyOf sort_by b ≤ sortKeyOf sort_by a) := by
  have hsorted : (inactive_sorted members river riverLog sort_by).Pairwise
      (fun a b => sortKeyOf sort_by b ≤ sortKeyOf sort_by a) := by
    have h := @List.sorted_mergeSort PlayerScore
      (fun a b : PlayerScore =>
        decide (sortKeyOf sort_by b ≤ sortKeyOf sort_by a))
      (fun a b c hab hbc => by
        simp only [decide_eq_true_eq] at hab hbc ⊢
        exact le_trans hbc hab)
      (fun a b => by
        simp only [Bool.or_eq_true, decide_eq_true_eq]
        exact le_total (sortKeyOf sort_by b) (sortKeyOf sort_by a))
      (inactive_player_scores members river riverLog)
    exact h.imp fun hab => by simpa using hab
  refine ⟨?_, hsorted, rfl, hsorted.sublist (List.take_sublist _ _)⟩
  intro m hm
  refine ⟨(scoreMember_base_formulas _ _ m).1,
    fun hn => scoreMember_none_formulas _ _ m hn,
    fun h hs => scoreMember_some_formulas _ _ m h
      (hist_wars_pos riverLog _ h hs) hs,
    (scoreMember_base_formulas _ _ m).2.1,
    (scoreMember_base_formulas _ _ m).2.2⟩

theorem fmt_inactive_players_spec_witness :
    (scoreMember (historicalPerformance none) (riverParticipants ex80)
        { name := some "bob", donations := 70 }).donations_score
      = 1000 - (((70 : Int) : ℚ)) ∧
    (scoreMember (historicalPerformance none) (riverParticipants ex80)
        { name := some "bob", donations := 70 }).war_attacks_score
      = (8 - ((scoreMember (historicalPerformance none) (riverParticipants ex80)
          { name := some "bob", donations := 70 }).decks_used : ℚ)) * 100 := by
  have h := (fmt_inactive_players_spec
    { items := [{ name := some "bob", donations := 70 }] } ex80 none "gesamt" 10).1
    { name := some "bob", donations := 70 } (by simp)
  exact ⟨h.1, (h.2.1 (by rfl)).1⟩

/-! ## Refinement: the river log passed by `fmt_inactive_players` is
aggregated under the empty own-clan tag (`formatters.py` lines 729-733)
and therefore matches nothing when all standing tags are non-empty. -/

theorem aggregate_empty_tag_occs (rlog : RiverLog)
    (hstand : ∀ it ∈ rlog.items, ∀ st ∈ it.standings, st.normClanTag ≠ "") :
    ∀ key, warOccsT rlog (normTag "") key = [] := by
  intro key
  unfold warOccsT
  rw [List.flatMap_eq_nil_iff]
  intro it hit
  rw [List.flatMap_eq_nil_iff]
  intro st hst
  have : st ∈ it.standings.filter fun st => st.normClanTag = normTag "" :=
    hst
  rw [List.mem_filter] at this
  have h2 := this.2
  simp only [decide_eq_true_eq] at h2
  exact absurd h2 (by simpa using hstand it hit st this.1)

/-- C9: when every standing in the river log has a non-empty normalized
clan tag, `fmt_inactive_players` computes the same scores with the log
supplied as without it: the aggregator is invoked with the empty string as
own-clan tag, which matches no standing, so the historical map is empty
and every member gets the no-history baselines
`war_attacks_score = (8 - decksUsed) * 100`,
`war_points_score = 800 - fame`. -/
theorem inactive_scores_ignore_history (members : MembersPayload) (river : RR)
    (rlog : RiverLog)
    (hstand : ∀ it ∈ rlog.items, ∀ st ∈ it.standings, st.normClanTag ≠ "") :
    inactive_player_scores members river (some rlog) =
      inactive_player_scores members river none ∧
    ∀ m ∈ members.items,
      (scoreMember (historicalPerformance (some rlog)) (riverParticipants river) m).war_attacks_score
        = (8 - ((scoreMember (historicalPerformance (some rlog)) (riverParticipants river) m).decks_used : ℚ)) * 100 ∧
      (scoreMember (historicalPerformance (some rlog)) (riverParticipants river) m).war_points_score
        = 800 - ((scoreMember (historicalPerformance (some rlog)) (riverParticipants river) m).fame : ℚ) := by
  have hlook : ∀ tag, lookupEntry (historicalPerformance (some rlog)) tag = none := by
    intro tag
    show lookupEntry (aggregate_war_history rlog "") tag = none
    exact (agg_lookup_spec rlog "" tag).1.mpr
      (by simp [warOccs, aggregate_empty_tag_occs rlog hstand tag])
  constructor
  · unfold inactive_player_scores
    exact List.map_congr_left fun m _ =>
      scoreMember_hist_lookup _ _ _ m
        ((hlook _).trans (by simp [historicalPerformance, lookupEntry]))
  · intro m hm
    exact scoreMember_none_formulas _ _ m (hlook _)

theorem inactive_scores_ignore_history_witness :
    inactive_player_scores exMembers ex80 (some exLog) =
      inactive_player_scores exMembers ex80 none :=
  (inactive_scores_ignore_history exMembers ex80 exLog (by decide)).1

/-! ## Report renderers and the message-length cap
(`formatters.py`, `fmt_clan` and `fmt_open_decks_overview`;
`config.MAX_MESSAGE_LENGTH = 4096`) -/

/-- Embedding of Python `s.strip()` (whitespace stripped on both ends). -/
def strStrip (s : String) : String :=
  ⟨((s.data.dropWhile Char.isWhitespace).reverse.dropWhile Char.isWhitespace).reverse⟩

/-- Embedding of Python `s.replace(c₁, c₂)` for single characters. -/
def strReplaceChar (src : String) (c₁ c₂ : Char) : String :=
  ⟨src.data.map fun c => if c = c₁ then c₂ else c⟩

/-- Digit grouping on a reversed digit list: a comma before every third
digit (counted from the least significant end). -/
def commaGroupRev : List Char → Nat → List Char
  | [], _ => []
  | c :: cs, i =>
    if i ≠ 0 ∧ i % 3 = 0 then ',' :: c :: commaGroupRev cs (i + 1)
    else c :: commaGroupRev cs (i + 1)

/-- Embedding of the Python format `f"{n:,}"` for an integer. -/
def pyCommaFmt (n : Int) : String :=
  let grouped := (commaGroupRev (toString n.natAbs).data.reverse 0).reverse
  (if n < 0 then "-" else "") ++ String.mk grouped

/-- The `flag_emojis` dictionary lookup with default `"🌍"`. -/
def flagEmoji (cc : String) : String :=
  if cc = "CH" then "🇨🇭" else if cc = "DE" then "🇩🇪"
  else if cc = "AT" then "🇦🇹" else if cc = "FR" then "🇫🇷"
  else if cc = "IT" then "🇮🇹" else if cc = "US" then "🇺🇸"
  else if cc = "GB" then "🇬🇧" else if cc = "CA" then "🇨🇦"
  else if cc = "AU" then "🇦🇺" else if cc = "NL" then "🇳🇱"
  else if cc = "ES" then "🇪🇸" else if cc = "SE" then "🇸🇪"
  else if cc = "NO" then "🇳🇴" else if cc = "DK" then "🇩🇰"
  else if cc = "FI" then "🇫🇮" else "🌍"

/-- The clan payload's `location` object. -/
structure Location where
  name : Option String := none
  countryCode : Option String := none
  deriving Repr, DecidableEq

/-- The clan profile payload rendered by `fmt_clan`. -/
structure ClanData where
  name : Option String := none
  tag : Option String := none
  members : Option Int := none
  clanScore : Option Int := none
  requiredTrophies : Option Int := none
  description : Option String := none
  location : Option Location := none
  clanWarTrophies : Int := 0
  memberList : List Member := []
  deriving Repr, DecidableEq

/-- Rendering of the `{members}` / `{score}` / `{req}` placeholders: the
integer when present, the `"?"` default otherwise. -/
def intOptStr : Option Int → String
  | some n => toString n
  | none => "?"

/-- Embedding of `fmt_clan(clan_data, fallback_tag, local_rank)`
(`formatters.py` lines 96-225).  `int(score/members)` and
`int(total_level/len(member_list))` (float division truncated toward zero
on non-negative operands) are embedded as `Int.tdiv`.  Note the returned
string is `"\n".join(lines)` with no length truncation. -/
def fmt_clan (clan_data : ClanData) (fallback_tag : String)
    (local_rank : Option Int) : String :=
  let name := clan_data.name.getD "Unbekannt"
  let tag := clan_data.tag.getD ("#" ++ fallback_tag)
  let desc := strStrip (clan_data.description.getD "")
  let location_name := match clan_data.location with
    | none => "Unbekannt"
    | some l => l.name.getD "Unbekannt"
  let country_code := match clan_data.location with
    | none => ""
    | some l => l.countryCode.getD ""
  let clan_war_trophies := clan_data.clanWarTrophies
  let avg_trophies : Int :=
    match clan_data.clanScore, clan_data.members with
    | some s, some mem => if 0 < mem then Int.tdiv s mem else 0
    | _, _ => 0
  let member_list := clan_data.memberList
  let leader_count := (member_list.filter fun m => m.role.getD "member" = "leader").length
  let co_leader_count :=
    (member_list.filter fun m => m.role.getD "member" = "coLeader").length
  let elder_count := (member_list.filter fun m => m.role.getD "member" = "elder").length
  let member_count := (member_list.filter fun m =>
    m.role.getD "member" ≠ "leader" ∧ m.role.getD "member" ≠ "coLeader" ∧
      m.role.getD "member" ≠ "elder").length
  let total_donations := (member_list.map Member.donations).sum
  let avg_level : Int :=
    if member_list.isEmpty then 0
    else Int.tdiv ((member_list.map Member.expLevel).sum) member_list.length
  let highest_trophies := (member_list.map Member.trophies).foldl max 0
  let lowest_trophies : Int :=
    match member_list.map Member.trophies with
    | [] => 0
    | t :: ts => ts.foldl min t
  let desc2 := if 300 < desc.length then strTake desc 300 ++ "…" else desc
  let flag := flagEmoji country_code
  let score_line := match clan_data.clanScore with
    | some s => strReplaceChar ("🏆 <b>Clan-Trophäen:</b> " ++ pyCommaFmt s) ',' '.'
    | none => "🏆 <b>Clan-Trophäen:</b> ?"
  let war_line := if clan_war_trophies ≠ 0 then
      strReplaceChar ("⚔️ <b>Clan-War-Trophäen:</b> " ++ pyCommaFmt clan_war_trophies)
        ',' '.'
    else "⚔️ <b>Clan-War-Trophäen:</b> 0"
  let req_line := match clan_data.requiredTrophies with
    | some r => strReplaceChar ("🔑 <b>Mindest-Trophäen:</b> " ++ pyCommaFmt r) ',' '.'
    | none => "🔑 <b>Mindest-Trophäen:</b> ?"
  let lines₁ := ["🏛️ <b>" ++ name ++ "</b> (" ++ tag ++ ")",
                 flag ++ " <b>Region:</b> " ++ location_name]
  let lines₂ := match local_rank with
    | some r => lines₁ ++ ["🥇 <b>Lokale Platzierung:</b> #" ++ toString r]
    | none => lines₁
  let lines₃ := lines₂ ++
    ["", "👥 <b>Mitglieder:</b> " ++ intOptStr clan_data.members ++ "/50",
     score_line, war_line, req_line]
  let lines₄ := if 0 < avg_trophies then
      lines₃ ++
        [strReplaceChar ("📊 <b>Ø Trophäen/Mitglied:</b> " ++ pyCommaFmt avg_trophies)
          ',' '.']
    else lines₃
  let hierarchy_parts :=
    (if 0 < leader_count then ["👑" ++ toString leader_count] else []) ++
    (if 0 < co_leader_count then ["🔥" ++ toString co_leader_count] else []) ++
    (if 0 < elder_count then ["⭐" ++ toString elder_count] else []) ++
    (if 0 < member_count then ["👤" ++ toString member_count] else [])
  let lines₅ := if member_list.isEmpty then lines₄
    else
      (if hierarchy_parts.isEmpty then lines₄
       else lines₄ ++
         ["👑 <b>Hierarchie:</b> " ++ String.intercalate " | " hierarchy_parts]) ++
      ["", "📈 <b>Mitglieder-Statistiken:</b>",
       strReplaceChar ("• Höchste Trophäen: <b>" ++ pyCommaFmt highest_trophies ++ "</b>")
         ',' '.',
       strReplaceChar ("• Niedrigste Trophäen: <b>" ++ pyCommaFmt lowest_trophies ++ "</b>")
         ',' '.',
       "• Durchschnittslevel: <b>" ++ toString avg_level ++ "</b>",
       strReplaceChar ("• Wochensumme Spenden: <b>" ++ pyCommaFmt total_donations ++ "</b>")
         ',' '.']
  let lines₆ := if desc2.isEmpty then lines₅
    else lines₅ ++ ["", "📝 <b>Beschreibung:</b>", desc2]
  String.intercalate "\n" lines₆

/-- Comparator for the open rows: Python key `(-remaining, used_today,
name.lower())`. -/
def openRowLe (a b : Int × Int × String) : Bool :=
  if b.1 < a.1 then true
  else if a.1 < b.1 then false
  else if a.2.1 < b.2.1 then true
  else if b.2.1 < a.2.1 then false
  else strLe (strLower a.2.2) (strLower b.2.2)

/-- Comparator for the finished rows: Python key `name.lower()`. -/
def doneRowLe (a b : Int × Int × String) : Bool :=
  strLe (strLower a.2.2) (strLower b.2.2)

/-- Embedding of `fmt_open_decks_overview(rr, my_tag_nohash, max_decks)`
(`formatters.py` lines 227-293).  The timestamp string produced from
`datetime.now(LOCAL_TZ)` is the explicit parameter `ts`. -/
def fmt_open_decks_overview (rr : RR) (my_tag_nohash : String) (max_decks : Int)
    (ts : String) : String :=
  let my_tag := normTag my_tag_nohash
  let my0 := rr.clan.getD {}
  let my := if normTag (my0.tag.getD "") = my_tag then my0
    else ((rr.clans.getD []).filter fun c => c.normTagOf = my_tag).head?.getD my0
  let my_name := my.name.getD "Unser Clan"
  let rows : List (Int × Int × String) := my.participants.map fun p =>
    (max (max_decks - p.decksUsedToday) 0, p.decksUsedToday, p.name.getD "Unbekannt")
  let rows_open := (rows.filter fun r => 0 < r.1).mergeSort openRowLe
  let rows_done := (rows.filter fun r => r.1 = 0).mergeSort doneRowLe
  let ordered := rows_open ++ rows_done
  let header := "📋 " ++ my_name ++ " – Offene Angriffe (heute)\n"
  let body := (List.enumFrom 1 ordered).map fun ir =>
    let done := if ir.2.1 = 0 ∧ max_decks ≤ ir.2.2.1 then " ✅" else ""
    rjust 2 (toString ir.1) ++ ". " ++ ir.2.2.2 ++ " — " ++ toString ir.2.1 ++
      " offen (" ++ toString ir.2.2.1 ++ "/" ++ toString max_decks ++ ")" ++ done
  let total_remaining := (rows.map (·.1)).sum
  let opp_lines := (rr.clans.getD []).filterMap fun c =>
    if c.normTagOf = "" ∨ c.normTagOf = my_tag then none
    else
      let plist := c.participants
      let total_slots := (plist.length : Int) * max_decks
      let open_sum := (plist.map fun p => max (max_decks - p.decksUsedToday) 0).sum
      some ("• " ++ c.name.getD "?" ++ " — noch " ++ toString open_sum ++ "/" ++
        toString total_slots ++ " offen")
  let lines := [header] ++ body ++
    (if opp_lines.isEmpty then []
     else ["\n🆚 Gegner (heute, kompakt)"] ++ opp_lines) ++
    ["\nΣ offen heute: " ++ toString total_remaining, "🕒 Datenstand: " ++ ts]
  strTake (String.intercalate "\n" lines) 4096

theorem strTake_length_le (s : String) (n : Nat) : (strTake s n).length ≤ n := by
  show (s.data.take n).length ≤ n
  rw [List.length_take]
  exact min_le_left _ _

/-- A 4200-character clan name. -/
def bigName : String := String.mk (List.replicate 4200 'a')

/-- A clan payload whose name is 4200 characters long; every other field
is absent. -/
def cxBigClan : ClanData := { name := some bigName }

/-- C8 counterexample: `fmt_clan` applies no length cap — on a clan
payload with a 4200-character name its report exceeds the fixed maximum
message length of 4096 characters. -/
theorem fmt_clan_exceeds_cap :
    4096 < (fmt_clan cxBigClan "T" none).length := by
  have h1 : fmt_clan cxBigClan "T" none = String.intercalate "\n"
      ["🏛️ <b>" ++ bigName ++ "</b> (" ++ ("#" ++ "T") ++ ")",
       "🌍 <b>Region:</b> Unbekannt", "",
       "👥 <b>Mitglieder:</b> ?/50", "🏆 <b>Clan-Trophäen:</b> ?",
       "⚔️ <b>Clan-War-Trophäen:</b> 0", "🔑 <b>Mindest-Trophäen:</b> ?"] := rfl
  have h2 : bigName.length = 4200 := by
    show (List.replicate 4200 'a').length = 4200
    rw [List.length_replicate]
  rw [h1]
  simp only [String.intercalate, String.intercalate.go, String.length_append, h2]
  decide

/-- C8 (amended): the renderers that end in the
`[:config.MAX_MESSAGE_LENGTH]` slice — here `fmt_open_decks_overview` and
`fmt_donations_leaderboard` — return at most 4096 characters for every
input, the cap applied as the very last rendering step; `fmt_clan` (and
likewise `fmt_player_details`) return their text uncapped. -/
theorem renderers_capped (rr : RR) (my_tag_nohash : String) (max_decks : Int)
    (ts : String) (members : MembersPayload) (limit : Int)
    (include_received : Bool) :
    (fmt_open_decks_overview rr my_tag_nohash max_decks ts).length ≤ 4096 ∧
    (fmt_donations_leaderboard members limit include_received).length ≤ 4096 :=
  ⟨strTake_length_le _ _, strTake_length_le _ _⟩

end Crbot
